import Mathlib

/-!
Shallow embedding of the context-retrieval subsystem of `AllInApp`
(`src/AllInApp/nlp_analysis.py`): the `extract_lessons` keyword extractor and
the `build_context` function that maintains a FAISS vector index paired with a
JSON "ledger" of past lesson strings.

Modelling choices:
* Embedding vectors are an abstract type parameter `Vec`: no verified claim
  depends on the numeric contents of a vector, only on counts and dimensions.
* The FAISS index (`faiss.IndexFlatL2`) is modelled by its externally
  observable state: its dimension `d` and its stored vectors (`ntotal` is
  their number).  `search` is an oracle supplied by the environment, standing
  for the FAISS library: the claims hold for every oracle, in particular the
  real one.
* The file system is a `Stores` value: the contents of the index file and of
  the past-lessons JSON file, `none` when the file does not exist.
* Fallible I/O steps (loading the two files, searching, writing each of the
  two files) are given success/failure switches in an `Env`; Python exception
  handlers are translated branch by branch.  `build_context`'s result type is
  `Except String (List String)` so that "the call raises" is expressible.
* Python list indexing `past_lessons_data[idx]` is modelled by `List.get?`
  inside an `Option` monad: a `none` outcome models an out-of-bounds access
  (an `IndexError`).
-/

namespace AllInApp

/-! ## Data model: index, model, file system, environment -/

/-- The observable state of a `faiss.IndexFlatL2`: its vector dimension `d`
and the vectors added so far (in insertion order). -/
structure FaissIndex (Vec : Type) where
  d : Nat
  vectors : List Vec
deriving DecidableEq

variable {Vec : Type}

/-- `index.ntotal`: the number of vectors stored in the index. -/
def FaissIndex.ntotal (i : FaissIndex Vec) : Nat := i.vectors.length

/-- `faiss.IndexFlatL2(d)`: a fresh empty index of dimension `d`. -/
def IndexFlatL2 (Vec : Type) (d : Nat) : FaissIndex Vec := ⟨d, []⟩

/-- `index.add(vs)`: appends a batch of vectors to the index. -/
def FaissIndex.add (i : FaissIndex Vec) (vs : List Vec) : FaissIndex Vec :=
  ⟨i.d, i.vectors ++ vs⟩

/-- The loaded SentenceTransformer model: its embedding dimension
(`get_sentence_embedding_dimension()`) and its (pure) `encode` function. -/
structure SentenceModel (Vec : Type) where
  dim : Nat
  encode : String → Vec

/-- The persisted state: contents of the FAISS index file at
`faiss_index_path` and of the ledger JSON file at `past_lessons_json_path`;
`none` means the file does not exist. -/
structure Stores (Vec : Type) where
  indexFile : Option (FaissIndex Vec)
  ledgerFile : Option (List String)
deriving DecidableEq

/-- The initial state: neither file exists. -/
def emptyStores : Stores Vec := ⟨none, none⟩

/-- The environment of one `build_context` call: the FAISS search oracle
(given the index, the batch of query vectors and `k`, it returns the matrix
`I` of neighbor positions, `-1` being the FAISS no-match sentinel), and
success/failure switches for each fallible I/O step: loading the two files
(lines 163-167), the search block (lines 187-209), writing the index file
(line 229) and writing the ledger JSON (lines 230-231). -/
structure Env (Vec : Type) where
  search : FaissIndex Vec → List Vec → Nat → List (List Int)
  loadOk : Bool
  searchOk : Bool
  writeIndexOk : Bool
  writeJsonOk : Bool

/-- A call in which every fallible I/O step succeeds. -/
def Env.successful (env : Env Vec) : Prop :=
  env.loadOk = true ∧ env.searchOk = true ∧
    env.writeIndexOk = true ∧ env.writeJsonOk = true

instance (env : Env Vec) : Decidable env.successful :=
  inferInstanceAs (Decidable (_ ∧ _ ∧ _ ∧ _))

/-! ## Loading phase (`nlp_analysis.py` lines 162-180) -/

/-- Lines 162-180 of `build_context`: load the index and the ledger.  If
either file is missing, start from a fresh empty index and empty ledger.  If
both load but the index dimension differs from the model dimension, discard
both (lines 169-172).  Any exception while loading also falls back to a fresh
pair (lines 177-180). -/
def loadStores (env : Env Vec) (embedding_dimension : Nat) (st : Stores Vec) :
    FaissIndex Vec × List String :=
  match st.indexFile, st.ledgerFile with
  | some index, some past_lessons_data =>
    if env.loadOk then
      if index.d ≠ embedding_dimension then
        (IndexFlatL2 Vec embedding_dimension, [])
      else
        (index, past_lessons_data)
    else
      (IndexFlatL2 Vec embedding_dimension, [])
  | _, _ => (IndexFlatL2 Vec embedding_dimension, [])

/-! ## Neighbor resolution (`nlp_analysis.py` lines 196-205) -/

/-- `related_context_lessons_set.add`: Python-set insertion, modelled as an
insertion-ordered duplicate-free list. -/
def insertUnique (s : List String) (x : String) : List String :=
  if x ∈ s then s else s ++ [x]

/-- Lines 198-205, the body of the inner loop: one neighbor position `idx`.
Positions equal to `-1` are skipped (line 198); positions outside
`[0, len(past_lessons_data))` are skipped with a warning (lines 200, 204-205);
otherwise `past_lessons_data[idx]` is read — modelled as `List.get?`, where
`none` stands for an out-of-bounds access — and added to the set unless it is
one of the current lessons (lines 202-203). -/
def neighborStep (past_lessons_data current_lessons_text : List String)
    (acc : List String) (idx : Int) : Option (List String) :=
  if idx ≠ -1 then
    if 0 ≤ idx ∧ idx < (past_lessons_data.length : Int) then
      match past_lessons_data.get? idx.toNat with
      | some t =>
        some (if t ∈ current_lessons_text then acc else insertUnique acc t)
      | none => none
    else
      some acc
  else
    some acc

/-- Lines 196-205: the double loop over the search result rows `I[i]` (one
row per current lesson), accumulating the set of related past lessons.  A
`none` result models an uncaught `IndexError` from `past_lessons_data[idx]`. -/
def collectNeighbors (rows : List (List Int))
    (past_lessons_data current_lessons_text : List String) :
    Option (List String) :=
  rows.foldlM
    (fun acc row => row.foldlM (neighborStep past_lessons_data current_lessons_text) acc)
    []

/-! ## Search and update phases, `build_context` -/

/-- Lines 185-213 of `build_context`: when there are current lessons and the
index is non-empty, encode the current lessons, run the FAISS search and
collect related past lessons; the whole block is wrapped in `try/except`, so
a search failure (or an `IndexError` while resolving) leaves the related set
empty rather than raising.  The loop at line 196 runs over
`range(len(current_lessons_text))`, hence over the first
`len(current_lessons_text)` rows of `I`. -/
def searchPhase (env : Env Vec) (model : SentenceModel Vec)
    (current_lessons_text : List String) (index : FaissIndex Vec)
    (past_lessons_data : List String) (top_k_similar : Nat) : List String :=
  if current_lessons_text ≠ [] ∧ 0 < index.ntotal then
    if env.searchOk then
      match collectNeighbors
          ((env.search index (current_lessons_text.map model.encode)
              top_k_similar).take current_lessons_text.length)
          past_lessons_data current_lessons_text with
      | some s => s
      | none => []
    else []
  else []

/-- Lines 216-236 of `build_context`: when there are current lessons, add
their embeddings to the in-memory index, extend the in-memory ledger, then
write the index file (line 229) and the ledger JSON (lines 230-231), in that
order.  The block is wrapped in `try/except` (lines 233-236): if writing the
index file fails, neither file changes; if writing the JSON fails after the
index write, only the index file has changed.  The function's persisted
result is returned; the in-memory values are local to the call. -/
def updatePhase (env : Env Vec) (model : SentenceModel Vec)
    (current_lessons_text : List String) (index : FaissIndex Vec)
    (past_lessons_data : List String) (st : Stores Vec) : Stores Vec :=
  if current_lessons_text ≠ [] then
    let new_embeddings_to_add := current_lessons_text.map model.encode
    let index' := index.add new_embeddings_to_add
    let past' := past_lessons_data ++ current_lessons_text
    if env.writeIndexOk then
      if env.writeJsonOk then
        ⟨some index', some past'⟩
      else
        ⟨some index', st.ledgerFile⟩
    else st
  else st

/-- `build_context` (lines 139-238): given the environment, the (possibly
unloaded) sentence model, the new lessons, the persisted state and
`top_k_similar`, returns the related-context list together with the new
persisted state.  An unloaded model returns `[]` immediately (lines 154-156).
Every fallible step of the body sits inside a `try/except` handler, so the
translated function always returns `Except.ok`; the `Except` result type
keeps "the call raises" expressible. -/
def build_context (env : Env Vec) (sentence_model : Option (SentenceModel Vec))
    (current_lessons_text : List String) (st : Stores Vec)
    (top_k_similar : Nat) :
    Except String (List String) × Stores Vec :=
  match sentence_model with
  | none => (Except.ok [], st)
  | some model =>
    let loaded := loadStores env model.dim st
    (Except.ok (searchPhase env model current_lessons_text loaded.1 loaded.2
        top_k_similar),
     updatePhase env model current_lessons_text loaded.1 loaded.2 st)

/-- The list a caller receives from a `build_context` result. -/
def contextResult (r : Except String (List String)) : List String :=
  match r with
  | Except.ok l => l
  | Except.error _ => []

/-! ## Call sequences and the alignment invariant -/

/-- One `build_context` call: its I/O environment, the model handed to it,
its new lessons and its `top_k_similar`. -/
structure Call (Vec : Type) where
  env : Env Vec
  sentence_model : Option (SentenceModel Vec)
  lessons : List String
  top_k : Nat

/-- Run a sequence of `build_context` calls, threading the persisted state. -/
def runCalls : List (Call Vec) → Stores Vec → Stores Vec
  | [], st => st
  | c :: rest, st =>
    runCalls rest (build_context c.env c.sentence_model c.lessons st c.top_k).2

/-- Number of vectors recorded in the persisted index file (0 if absent). -/
def indexCount : Option (FaissIndex Vec) → Nat
  | none => 0
  | some i => i.ntotal

/-- Number of entries in the persisted ledger file (0 if absent). -/
def ledgerLen : Option (List String) → Nat
  | none => 0
  | some l => l.length

/-- The alignment invariant: the persisted index holds exactly as many
vectors as the persisted ledger holds entries. -/
def Stores.aligned (st : Stores Vec) : Prop :=
  indexCount st.indexFile = ledgerLen st.ledgerFile

instance (st : Stores Vec) : Decidable st.aligned :=
  inferInstanceAs (Decidable (indexCount st.indexFile = ledgerLen st.ledgerFile))

/-! ## The extractor (`nlp_analysis.py` lines 53-114) -/

/-- A spaCy token, with the attributes `extract_lessons` reads: `is_stop`,
`is_punct` and `lemma_`. -/
structure Token where
  is_stop : Bool
  is_punct : Bool
  lemma_ : String

/-- A pytextrank phrase: its text, its rank, and its chunks (spaCy spans,
each a run of tokens). -/
structure Phrase where
  text : String
  rank : Rat
  chunks : List (List Token)

/-- The result of running the spaCy pipeline on a text: `doc._.phrases`. -/
structure Doc where
  phrases : List Phrase

/-- Lines 102-105: add to the keyword set the lowercased lemma of every
token of every chunk of the phrase that is neither a stop word nor
punctuation and has a non-empty lemma. -/
def addPhraseKeywords (p : Phrase) (keywords : List String) : List String :=
  p.chunks.foldl
    (fun kws chunk =>
      chunk.foldl
        (fun kws token =>
          if !token.is_stop && !token.is_punct && token.lemma_ ≠ "" then
            insertUnique kws token.lemma_.toLower
          else kws)
        kws)
    keywords

/-- Lines 88-108: the keyword loop over the extracted lesson texts.  For each
lesson text, the first phrase with that text is looked up (line 98, `next`);
if none is found the iteration is skipped (`continue`, line 100); otherwise
its keywords are added, and the loop breaks once at least `max_keywords = 30`
keywords are collected (lines 107-108). -/
def collectKeywords (phrases : List Phrase) :
    List String → List String → List String
  | [], keywords => keywords
  | phrase_text :: rest, keywords =>
    match phrases.find? (fun p => p.text = phrase_text) with
    | none => collectKeywords phrases rest keywords
    | some p =>
      let keywords := addPhraseKeywords p keywords
      if 30 ≤ keywords.length then keywords
      else collectKeywords phrases rest keywords

/-- `extract_lessons` (lines 53-114): with a missing pipeline or an empty
transcript return `([], [])` (lines 66-71); run the pipeline; with no
phrases return `([], [])` (lines 76-78); otherwise sort the phrases by rank
descending (stably, as Python's `sorted(..., reverse=True)`), keep the top
15 texts as lessons (lines 82-84), and collect up to 30 unique keywords from
them (lines 88-111). -/
def extract_lessons (transcript_text : String)
    (nlp_pipeline : Option (String → Doc)) : List String × List String :=
  match nlp_pipeline with
  | none => ([], [])
  | some pipe =>
    if transcript_text = "" then ([], [])
    else
      let doc := pipe transcript_text
      match doc.phrases with
      | [] => ([], [])
      | _ :: _ =>
        let sorted_phrases :=
          doc.phrases.mergeSort (fun a b => decide (b.rank ≤ a.rank))
        let extracted_lessons_text := (sorted_phrases.take 15).map Phrase.text
        let keywords := collectKeywords doc.phrases extracted_lessons_text []
        (extracted_lessons_text, keywords.take 30)

/-! ## Concrete instances used to evaluate the definitions -/

/-- A concrete sentence model over `Vec := Nat` with the dimension (384) of
`all-MiniLM-L6-v2`. -/
def natModel : SentenceModel Nat := ⟨384, fun _ => 0⟩

/-- An environment in which every I/O step succeeds and the search oracle
returns no rows. -/
def okEnv : Env Nat := ⟨fun _ _ _ => [], true, true, true, true⟩

/-- An environment in which writing the index file fails. -/
def persistFailEnv : Env Nat := ⟨fun _ _ _ => [], true, true, false, true⟩

/-- An environment whose search oracle returns neighbor position 0 for the
first query. -/
def searchHitEnv : Env Nat := ⟨fun _ _ _ => [[0]], true, true, true, true⟩

/-- A persisted state whose index holds 1 vector while its ledger holds 2
entries — a count mismatch with a matching dimension. -/
def mismatchedStores : Stores Nat := ⟨some ⟨384, [0]⟩, some ["a", "b"]⟩

/-- A persisted state whose index dimension (512) differs from the model
dimension (384). -/
def dimMismatchStores : Stores Nat := ⟨some ⟨512, [7]⟩, some ["old"]⟩

/-- A persisted state holding exactly one past lesson, "old". -/
def oldStores : Stores Nat := ⟨some ⟨384, [5]⟩, some ["old"]⟩

/-- A pipeline that extracts no phrases from any text. -/
def trivialPipe : String → Doc := fun _ => ⟨[]⟩

/-- A single fully successful `build_context` call. -/
def call0 : Call Nat := ⟨okEnv, some natModel, ["a"], 3⟩

/-! ## Helper lemmas -/

theorem foldlM_option_nil {α β : Type} (f : β → α → Option β) (b : β) :
    ([] : List α).foldlM f b = some b := rfl

theorem foldlM_option_cons {α β : Type} (f : β → α → Option β) (b : β)
    (a : α) (l : List α) :
    (a :: l).foldlM f b = (f b a) >>= fun b' => l.foldlM f b' := rfl

theorem mem_insertUnique (s : List String) (x y : String) :
    y ∈ insertUnique s x ↔ y ∈ s ∨ y = x := by
  unfold insertUnique
  split
  · rename_i h
    constructor
    · exact Or.inl
    · rintro (hy | rfl)
      · exact hy
      · exact h
  · simp

theorem neighborStep_isSome (past cur acc : List String) (idx : Int) :
    (neighborStep past cur acc idx).isSome := by
  unfold neighborStep
  split
  · split
    · rename_i h
      have hlt : idx.toNat < past.length := by omega
      rw [List.get?_eq_get hlt]
      rfl
    · rfl
  · rfl

theorem neighborStep_mem (past cur acc : List String) (idx : Int)
    (s : List String) (hs : neighborStep past cur acc idx = some s)
    (x : String) (hx : x ∈ s) : x ∈ acc ∨ x ∉ cur := by
  unfold neighborStep at hs
  split at hs
  · split at hs
    · rename_i hrange
      cases hget : past.get? idx.toNat with
      | none => rw [hget] at hs; cases hs
      | some t =>
        rw [hget] at hs
        injection hs with hs
        subst hs
        split at hx
        · exact Or.inl hx
        · rename_i htcur
          rcases (mem_insertUnique acc t x).mp hx with h | rfl
          · exact Or.inl h
          · exact Or.inr htcur
    · injection hs with hs; subst hs; exact Or.inl hx
  · injection hs with hs; subst hs; exact Or.inl hx

theorem foldlM_neighbor_isSome (past cur : List String) (row : List Int)
    (acc : List String) :
    (row.foldlM (neighborStep past cur) acc).isSome := by
  induction row generalizing acc with
  | nil => rfl
  | cons idx rest ih =>
    rw [foldlM_option_cons]
    obtain ⟨s, hs⟩ := Option.isSome_iff_exists.mp (neighborStep_isSome past cur acc idx)
    rw [hs]
    exact ih s

theorem foldlM_rows_isSome (past cur : List String) (rows : List (List Int))
    (acc : List String) :
    (rows.foldlM (fun (a : List String) (row : List Int) => row.foldlM (neighborStep past cur) a) acc).isSome := by
  induction rows generalizing acc with
  | nil => rfl
  | cons row rest ih =>
    rw [foldlM_option_cons]
    obtain ⟨s, hs⟩ := Option.isSome_iff_exists.mp (foldlM_neighbor_isSome past cur row acc)
    rw [hs]
    exact ih s

theorem foldlM_neighbor_mem (past cur : List String) (row : List Int)
    (acc s : List String) (hacc : ∀ x ∈ acc, x ∉ cur)
    (h : row.foldlM (neighborStep past cur) acc = some s) :
    ∀ x ∈ s, x ∉ cur := by
  induction row generalizing acc with
  | nil =>
    rw [foldlM_option_nil] at h
    injection h with h
    subst h
    exact hacc
  | cons idx rest ih =>
    rw [foldlM_option_cons] at h
    cases hstep : neighborStep past cur acc idx with
    | none => rw [hstep] at h; cases h
    | some acc' =>
      rw [hstep] at h
      refine ih acc' ?_ h
      intro x hx
      rcases neighborStep_mem past cur acc idx acc' hstep x hx with h1 | h2
      · exact hacc x h1
      · exact h2

theorem foldlM_rows_mem (past cur : List String) (rows : List (List Int))
    (acc s : List String) (hacc : ∀ x ∈ acc, x ∉ cur)
    (h : rows.foldlM (fun (a : List String) (row : List Int) => row.foldlM (neighborStep past cur) a) acc = some s) :
    ∀ x ∈ s, x ∉ cur := by
  induction rows generalizing acc with
  | nil =>
    rw [foldlM_option_nil] at h
    injection h with h
    subst h
    exact hacc
  | cons row rest ih =>
    rw [foldlM_option_cons] at h
    cases hrow : row.foldlM (neighborStep past cur) acc with
    | none => rw [hrow] at h; cases h
    | some acc' =>
      rw [hrow] at h
      exact ih acc' (foldlM_neighbor_mem past cur row acc acc' hacc hrow) h

/-! ## Claim theorems -/

/-- C10: if `build_context` is invoked with an unloaded (`none`) sentence
model, it immediately returns the empty list and leaves the persisted index
file and ledger file exactly as they were. -/
theorem build_context_unloaded_model (env : Env Vec) (cur : List String)
    (st : Stores Vec) (k : Nat) :
    build_context env none cur st k = (Except.ok [], st) := rfl

/-- C6: calling `build_context` with an empty `new_lessons` list returns the
empty list and leaves the persisted index file and ledger file unchanged
(no search, no add, no persist). -/
theorem build_context_empty_noop (env : Env Vec)
    (m : Option (SentenceModel Vec)) (st : Stores Vec) (k : Nat) :
    build_context env m [] st k = (Except.ok [], st) := by
  cases m with
  | none => rfl
  | some model =>
    simp [build_context, searchPhase, updatePhase]

/-- C8: neighbor resolution is sentinel- and bounds-safe: for every search
result matrix, ledger and current-lesson list, the resolution loop — in
which reading `past_lessons_data[idx]` is modelled as a fallible access that
yields `none` when out of bounds — always succeeds, i.e. positions equal to
`-1` or outside `[0, len(ledger))` are skipped and the ledger is never
indexed out of bounds. -/
theorem collectNeighbors_never_out_of_bounds (rows : List (List Int))
    (past_lessons_data current_lessons_text : List String) :
    (collectNeighbors rows past_lessons_data current_lessons_text).isSome := by
  unfold collectNeighbors
  exact foldlM_rows_isSome past_lessons_data current_lessons_text rows []

/-- C5: self-exclusion — no string that is a member of the `new_lessons`
input of a `build_context` call ever appears in the related-context list
returned by that same call. -/
theorem build_context_self_exclusion (env : Env Vec)
    (m : Option (SentenceModel Vec)) (cur : List String) (st : Stores Vec)
    (k : Nat) (x : String)
    (hx : x ∈ contextResult (build_context env m cur st k).1) : x ∉ cur := by
  cases m with
  | none => cases hx
  | some model =>
    simp only [build_context, contextResult] at hx
    unfold searchPhase at hx
    split at hx
    · split at hx
      · rename_i hcond hok
        revert hx
        split
        · rename_i s hs
          intro hx
          exact foldlM_rows_mem _ cur _ [] s (by intro x h; cases h) hs x hx
        · intro hx; cases hx
      · cases hx
    · cases hx

/-- C5 witness: a concrete call whose related-context list is non-empty;
its element "old" is not among the new lessons. -/
theorem build_context_self_exclusion_witness :
    ("old" ∈ contextResult (build_context searchHitEnv (some natModel)
        ["new"] oldStores 3).1) ∧ "old" ∉ ["new"] :=
  ⟨by decide,
   build_context_self_exclusion searchHitEnv (some natModel) ["new"]
     oldStores 3 "old" (by decide)⟩

/-- C9: with a loaded pipeline, if the transcript string is empty or the
ranking provider yields no phrases, `extract_lessons` returns `([], [])`. -/
theorem extract_lessons_empty_cases (pipe : String → Doc)
    (transcript_text : String)
    (h : transcript_text = "" ∨ (pipe transcript_text).phrases = []) :
    extract_lessons transcript_text (some pipe) = ([], []) := by
  rcases h with h | h
  · subst h; rfl
  · by_cases ht : transcript_text = ""
    · subst ht; rfl
    · simp only [extract_lessons, if_neg ht]
      rw [h]

/-- C9 witness: a pipeline yielding no phrases on a non-empty transcript. -/
theorem extract_lessons_empty_cases_witness :
    ("hello" = "" ∨ (trivialPipe "hello").phrases = []) ∧
      extract_lessons "hello" (some trivialPipe) = ([], []) :=
  ⟨Or.inr rfl,
   extract_lessons_empty_cases trivialPipe "hello" (Or.inr rfl)⟩

theorem loadStores_counts (env : Env Vec) (d : Nat) (st : Stores Vec)
    (h : st.aligned) :
    (loadStores env d st).1.ntotal = (loadStores env d st).2.length := by
  obtain ⟨i?, l?⟩ := st
  cases i? with
  | none => cases l? <;> rfl
  | some i =>
    cases l? with
    | none => rfl
    | some l =>
      have hcount : i.ntotal = l.length := h
      simp only [loadStores]
      split
      · split
        · rfl
        · exact hcount
      · rfl

theorem build_context_preserves_aligned (env : Env Vec)
    (m : Option (SentenceModel Vec)) (cur : List String) (st : Stores Vec)
    (k : Nat) (hsucc : env.successful) (h : st.aligned) :
    ((build_context env m cur st k).2).aligned := by
  cases m with
  | none => exact h
  | some model =>
    obtain ⟨-, -, h3, h4⟩ := hsucc
    have hload := loadStores_counts env model.dim st h
    simp only [build_context, updatePhase, h3, h4, if_true]
    split
    · show Stores.aligned ⟨some _, some _⟩
      show FaissIndex.ntotal _ = List.length _
      simp only [FaissIndex.ntotal] at hload
      simp only [FaissIndex.add, FaissIndex.ntotal, List.length_append,
        List.length_map]
      omega
    · exact h

theorem runCalls_aligned (calls : List (Call Vec))
    (h : ∀ c ∈ calls, c.env.successful) (st : Stores Vec)
    (hst : st.aligned) : (runCalls calls st).aligned := by
  induction calls generalizing st with
  | nil => exact hst
  | cons c rest ih =>
    exact ih (fun d hd => h d (List.mem_cons_of_mem c hd)) _
      (build_context_preserves_aligned c.env c.sentence_model c.lessons st
        c.top_k (h c (List.mem_cons_self c rest)) hst)

/-- C1: alignment invariant — starting from empty stores, after every
sequence of successful `build_context` calls the number of vectors in the
persisted index equals the number of entries in the persisted ledger
(`index.ntotal == len(past_lessons_data)`); since every prefix of a
successful sequence is itself a successful sequence, this holds after each
call. -/
theorem alignment_invariant (calls : List (Call Vec))
    (h : ∀ c ∈ calls, c.env.successful) :
    (runCalls calls (emptyStores : Stores Vec)).aligned :=
  runCalls_aligned calls h emptyStores rfl

/-- C1 witness: a concrete successful call sequence, evaluated. -/
theorem alignment_invariant_witness :
    (∀ c ∈ [call0], c.env.successful) ∧
      (runCalls [call0] (emptyStores : Stores Nat)).aligned :=
  ⟨by decide, alignment_invariant [call0] (by decide)⟩

/-- C2 counterexample: with a concrete call in which writing the index file
fails after a successful build, `build_context` returns `Except.ok []` —
a normal return, not an error: the persist failure is not surfaced to the
caller. -/
theorem persist_failure_not_surfaced :
    (build_context persistFailEnv (some natModel) ["a"]
        (emptyStores : Stores Nat) 3).1 = Except.ok [] ∧
      ¬ ∃ e, (build_context persistFailEnv (some natModel) ["a"]
        (emptyStores : Stores Nat) 3).1 = Except.error e := by
  refine ⟨rfl, ?_⟩
  rintro ⟨e, he⟩
  rw [show (build_context persistFailEnv (some natModel) ["a"]
      (emptyStores : Stores Nat) 3).1 = Except.ok [] from rfl] at he
  cases he

/-- C2 amended: a persist failure after a successful build is caught and
logged inside `build_context`, which still returns the related-context list
as a normal (`Except.ok`) result; when the index-file write fails, neither
file is modified. -/
theorem persist_failure_swallowed (env : Env Vec)
    (m : Option (SentenceModel Vec)) (cur : List String) (st : Stores Vec)
    (k : Nat) (hfail : env.writeIndexOk = false) :
    (∃ r, (build_context env m cur st k).1 = Except.ok r) ∧
      (build_context env m cur st k).2 = st := by
  cases m with
  | none => exact ⟨⟨[], rfl⟩, rfl⟩
  | some model =>
    refine ⟨⟨_, rfl⟩, ?_⟩
    simp [build_context, updatePhase, hfail]

/-- C2 amended witness: evaluated at a concrete failing-persist call. -/
theorem persist_failure_swallowed_witness :
    persistFailEnv.writeIndexOk = false ∧
      ((∃ r, (build_context persistFailEnv (some natModel) ["a"]
          (emptyStores : Stores Nat) 3).1 = Except.ok r) ∧
        (build_context persistFailEnv (some natModel) ["a"]
          (emptyStores : Stores Nat) 3).2 = emptyStores) :=
  ⟨rfl, persist_failure_swallowed persistFailEnv (some natModel) ["a"]
    emptyStores 3 rfl⟩

/-- C3 counterexample: loading a persisted index holding 1 vector next to a
ledger holding 2 entries (dimensions matching), a successful
`build_context ["c"]` call persists index `⟨384, [0, 0]⟩` (2 vectors) and
ledger `["a", "b", "c"]`: the mismatched structures were used as loaded, not
reset to empty together. -/
theorem count_mismatch_not_reset :
    (build_context okEnv (some natModel) ["c"] mismatchedStores 3).2 =
        ⟨some ⟨384, [0, 0]⟩, some ["a", "b", "c"]⟩ ∧
      (build_context okEnv (some natModel) ["c"] mismatchedStores 3).2.ledgerFile ≠
        some ["c"] := by
  exact ⟨rfl, by decide⟩

/-- C3 amended: `build_context` performs no count-consistency check on load:
when both files load successfully and the index dimension matches the model
dimension, the index and ledger are used exactly as loaded even if
`index.ntotal != len(ledger)`; only a dimension mismatch or a load failure
resets both structures to empty together. -/
theorem load_keeps_count_mismatch (env : Env Vec) (d : Nat)
    (i : FaissIndex Vec) (l : List String) (hload : env.loadOk = true)
    (hdim : i.d = d) :
    loadStores env d ⟨some i, some l⟩ = (i, l) := by
  simp [loadStores, hload, hdim]

/-- C3 amended witness: evaluated at the count-mismatched pair (1 vector
next to 2 ledger entries). -/
theorem load_keeps_count_mismatch_witness :
    okEnv.loadOk = true ∧ (⟨384, [0]⟩ : FaissIndex Nat).d = 384 ∧
      (⟨384, [0]⟩ : FaissIndex Nat).ntotal ≠ (["a", "b"] : List String).length ∧
      loadStores okEnv 384 ⟨some ⟨384, [0]⟩, some ["a", "b"]⟩ =
        (⟨384, [0]⟩, ["a", "b"]) :=
  ⟨rfl, rfl, by decide,
   load_keeps_count_mismatch okEnv 384 ⟨384, [0]⟩ ["a", "b"] rfl rfl⟩

/-- C4: dimension-mismatch reset — when the persisted index's dimension
differs from the model's, `build_context` resets both the in-memory index
and ledger to empty (lines 169-172), returns `Except.ok []` (no raise, no
search of the mismatched index, which is discarded), and, on a successful
non-empty call, persists exactly the fresh index grown by the new lessons
next to a ledger holding exactly the new lessons. -/
theorem dimension_mismatch_reset (env : Env Vec) (m : SentenceModel Vec)
    (st : Stores Vec) (i : FaissIndex Vec) (l : List String)
    (cur : List String) (k : Nat) (hidx : st.indexFile = some i)
    (hled : st.ledgerFile = some l) (hload : env.loadOk = true)
    (hdim : i.d ≠ m.dim) :
    loadStores env m.dim st = (IndexFlatL2 Vec m.dim, []) ∧
      (build_context env (some m) cur st k).1 = Except.ok [] ∧
      (env.successful → cur ≠ [] →
        (build_context env (some m) cur st k).2 =
          ⟨some ((IndexFlatL2 Vec m.dim).add (cur.map m.encode)),
           some cur⟩) := by
  obtain ⟨i?, l?⟩ := st
  cases hidx
  cases hled
  have hls : loadStores env m.dim ⟨some i, some l⟩ =
      (IndexFlatL2 Vec m.dim, []) := by
    simp [loadStores, hload, hdim]
  refine ⟨hls, ?_, ?_⟩
  · simp only [build_context, hls, searchPhase]
    rw [if_neg]
    rintro ⟨-, hn⟩
    cases hn
  · rintro ⟨-, -, h3, h4⟩ hcur
    simp [build_context, hls, updatePhase, h3, h4, hcur]

/-- C4 witness: evaluated at a persisted index of dimension 512 under a
model of dimension 384. -/
theorem dimension_mismatch_reset_witness :
    dimMismatchStores.indexFile = some ⟨512, [7]⟩ ∧
      dimMismatchStores.ledgerFile = some ["old"] ∧
      okEnv.loadOk = true ∧ (⟨512, [7]⟩ : FaissIndex Nat).d ≠ natModel.dim ∧
      (loadStores okEnv natModel.dim dimMismatchStores =
          (IndexFlatL2 Nat natModel.dim, []) ∧
        (build_context okEnv (some natModel) ["x"] dimMismatchStores 3).1 =
          Except.ok [] ∧
        (okEnv.successful → (["x"] : List String) ≠ [] →
          (build_context okEnv (some natModel) ["x"] dimMismatchStores 3).2 =
            ⟨some ((IndexFlatL2 Nat natModel.dim).add
                (["x"].map natModel.encode)), some ["x"]⟩)) :=
  ⟨rfl, rfl, rfl, by decide,
   dimension_mismatch_reset okEnv natModel dimMismatchStores ⟨512, [7]⟩
     ["old"] ["x"] 3 rfl rfl rfl (by decide)⟩

/-- C7: append-only growth and order — `build_context ["a", "b"]` on empty
stores followed by `build_context ["c"]`, both fully successful and with the
same model, persists a ledger of exactly `["a", "b", "c"]` in that order and
an index holding exactly the 3 embeddings `[encode "a", encode "b",
encode "c"]` in that order: new entries are appended after the unchanged
prior entries. -/
theorem growth_append_order (env1 env2 : Env Vec) (m : SentenceModel Vec)
    (k1 k2 : Nat) (h1 : env1.successful) (h2 : env2.successful) :
    (build_context env2 (some m) ["c"]
        (build_context env1 (some m) ["a", "b"] emptyStores k1).2 k2).2 =
      ⟨some ⟨m.dim, [m.encode "a", m.encode "b", m.encode "c"]⟩,
       some ["a", "b", "c"]⟩ := by
  obtain ⟨-, -, w1, j1⟩ := h1
  obtain ⟨l2, -, w2, j2⟩ := h2
  have hst1 : (build_context env1 (some m) ["a", "b"] emptyStores k1).2 =
      ⟨some ⟨m.dim, [m.encode "a", m.encode "b"]⟩, some ["a", "b"]⟩ := by
    simp [build_context, emptyStores, loadStores, updatePhase, w1, j1,
      IndexFlatL2, FaissIndex.add]
  rw [hst1]
  simp [build_context, loadStores, updatePhase, l2, w2, j2, FaissIndex.add]

/-- C7 witness: evaluated with two concrete successful environments. -/
theorem growth_append_order_witness :
    okEnv.successful ∧ searchHitEnv.successful ∧
      (build_context searchHitEnv (some natModel) ["c"]
          (build_context okEnv (some natModel) ["a", "b"]
            emptyStores 3).2 3).2 =
        ⟨some ⟨natModel.dim,
           [natModel.encode "a", natModel.encode "b", natModel.encode "c"]⟩,
         some ["a", "b", "c"]⟩ :=
  ⟨by decide, by decide,
   growth_append_order okEnv searchHitEnv natModel 3 3 (by decide) (by decide)⟩

end AllInApp
